import Mathlib

/-!
# NES black-box attack: shallow embedding and verification

This file embeds the NES (Natural Evolution Strategies) black-box
adversarial attack of `realsafe/attack/nes.py` and proves properties of
it: the antithetic perturbation construction, the C&W margin logit loss,
the NES gradient estimate, the per-metric constrained update step
(`l_2` / `l_inf`), the adaptive learning-rate schedule with plateau
detection, and the query-counting attack loop.

Machine floats are modelled by a linear ordered field `α` (instantiated
at `ℚ` for concrete runs and at `ℝ` when the `l_2` norm is involved);
`tf.sqrt` inside `tf.norm` is passed explicitly as a function `sqrt`,
instantiated with `Real.sqrt` over `ℝ`.  Randomness (`tf.random.normal`)
is external: each loop iteration consumes one batch from a supplied
stream of base perturbations.  Tensors of shape `x_shape` are functions
`Fin n → α`; the model's class scores are `Fin c → α`.
-/

namespace NESAtk

/-- Attack goal: `t` (targeted), `tm` (targeted misclassification), `ut`
(untargeted), mirroring the string goals of the source. -/
inductive Goal
  | t
  | tm
  | ut
deriving DecidableEq

/-- Distance metric retained after the constructor has validated the
`distance_metric` string: `l_2` or `l_inf`. -/
inductive Metric
  | l2
  | linf
deriving DecidableEq

/-- The scoring collaborator (the `model` object): class scores
(`logits_and_labels` first output), predicted label (second output), and
the valid input range `x_min`/`x_max`.  `n` is the flattened input
shape, `c` is `n_class`. -/
structure Model (α : Type) (n c : ℕ) where
  logits : (Fin n → α) → Fin c → α
  label : (Fin n → α) → Fin c
  xMin : α
  xMax : α

/-- The NES attack object after construction: model, goal, validated
metric, and `k = samples_per_draw // 2` (half the even batch size). -/
structure NES (α : Type) (n c : ℕ) where
  model : Model α n c
  goal : Goal
  metric : Metric
  k : ℕ

/-- `self.samples_per_draw = (samples_per_draw // 2) * 2`, the even
batch size actually used. -/
def NES.samplesPerDraw {α : Type} {n c : ℕ} (nes : NES α n c) : ℕ :=
  nes.k + nes.k

/-- Constructor of the attack (`NES.__init__`): rounds
`samples_per_draw` down to an even value and dispatches on the
`distance_metric` string, raising `NotImplementedError` for any metric
other than `l_2` and `l_inf`. -/
def mkNES {α : Type} {n c : ℕ} (model : Model α n c) (goal : Goal)
    (distanceMetric : String) (samplesPerDraw : ℕ) :
    Except String (NES α n c) :=
  if distanceMetric = "l_2" then
    Except.ok ⟨model, goal, Metric.l2, samplesPerDraw / 2⟩
  else if distanceMetric = "l_inf" then
    Except.ok ⟨model, goal, Metric.linf, samplesPerDraw / 2⟩
  else
    Except.error ("NotImplementedError")

section Defs

variable {α : Type} [LinearOrderedField α] {n c k m : ℕ}

/-- `perts = tf.concat([perts, -perts], axis=0)`: the antithetic batch of
size `k + k` built from `k` base draws. -/
def antithetic (base : Fin k → Fin n → α) : Fin (k + k) → Fin n → α :=
  fun s =>
    if h : (s : ℕ) < k then base ⟨s, h⟩
    else fun j => -(base ⟨(s : ℕ) - k, by omega⟩ j)

/-- One row of `logits_mask = tf.one_hot(ys, n_class)`. -/
def oneHot (y j : Fin c) : α := if j = y then 1 else 0

/-- `logit_this = tf.reduce_sum(logits_mask * logits, axis=-1)` for one
sample. -/
def logitThis (l : Fin c → α) (y : Fin c) : α := ∑ j, oneHot y j * l j

/-- `Finset.univ` over `Fin c` is nonempty when `c ≠ 0`. -/
def univNonempty (c : ℕ) [NeZero c] :
    (Finset.univ : Finset (Fin c)).Nonempty :=
  ⟨⟨0, Nat.pos_of_ne_zero (NeZero.ne c)⟩, Finset.mem_univ _⟩

/-- `logit_that = tf.reduce_max(logits - 99999 * logits_mask, axis=-1)`
for one sample. -/
def logitThat [NeZero c] (l : Fin c → α) (y : Fin c) : α :=
  Finset.univ.sup' (univNonempty c) fun j => l j - 99999 * oneHot y j

/-- `self.loss = logit_that - logit_this`: the C&W margin logit loss of
one sample. -/
def marginLoss [NeZero c] (l : Fin c → α) (y : Fin c) : α :=
  logitThat l y - logitThis l y

/-- The label fed to the loss: `np.repeat(y if self.goal == 'ut' else
y_target, samples_per_draw)`. -/
def nesLabel (goal : Goal) (y yT : Fin c) : Fin c :=
  if goal = Goal.ut then y else yT

/-- Loss of one perturbation sample: the margin loss of the scores at
`x_adv + sigma * pert`. -/
def nesLossAt [NeZero c] (model : Model α n c) (goal : Goal) (sigma : α)
    (y yT : Fin c) (xAdv pert : Fin n → α) : α :=
  marginLoss (model.logits fun j => xAdv j + sigma * pert j)
    (nesLabel goal y yT)

/-- `grad = tf.reduce_mean(loss * perts, axis=0) / sigma`: the raw NES
gradient estimate before the goal-dependent sign flip. -/
def estGradRaw (sigma : α) (lossV : Fin m → α)
    (batch : Fin m → Fin n → α) : Fin n → α :=
  fun j => (∑ s, lossV s * batch s j) / (m : α) / sigma

/-- The gradient estimate including `if self.goal != 'ut': grad = -grad`. -/
def estGrad (goal : Goal) (sigma : α) (lossV : Fin m → α)
    (batch : Fin m → Fin n → α) : Fin n → α :=
  if goal = Goal.ut then estGradRaw sigma lossV batch
  else fun j => -(estGradRaw sigma lossV batch j)

/-- `tf.sign` on one scalar: `1`, `-1` or `0`. -/
def tfSign (v : α) : α := if 0 < v then 1 else if v < 0 then -1 else 0

/-- `tf.norm(t)`: the Euclidean norm, with the square root passed in
explicitly (instantiated with `Real.sqrt` over `ℝ`). -/
def tfNorm (sqrt : α → α) (t : Fin n → α) : α := sqrt (∑ j, t j ^ 2)

/-- `tf.clip_by_norm(t, c) = t * c / max(norm(t), c)`. -/
def clipByNorm (sqrt : α → α) (t : Fin n → α) (clipNorm : α) :
    Fin n → α :=
  fun j => t j * clipNorm / max (tfNorm sqrt t) clipNorm

/-- `tf.clip_by_value(t, lo, hi)`, elementwise `min (max t lo) hi`. -/
def clipByValue (t : Fin n → α) (lo hi : α) : Fin n → α :=
  fun j => min (max (t j) lo) hi

/-- `x_adv_delta = x_adv - x + lr * grad / grad_norm` of the `l_2`
branch, where `grad_norm = tf.maximum(1e-12, tf.norm(grad))`. -/
def l2Delta (sqrt : α → α) (x xAdv grad : Fin n → α) (lr : α) :
    Fin n → α :=
  fun j => xAdv j - x j +
    lr * grad j / max ((1 : α) / 10 ^ 12) (tfNorm sqrt grad)

/-- `x_adv_delta = x_adv - x + lr * tf.sign(grad)` of the `l_inf`
branch. -/
def linfDelta (x xAdv grad : Fin n → α) (lr : α) : Fin n → α :=
  fun j => xAdv j - x j + lr * tfSign (grad j)

/-- The constrained update producing `x_adv_next`: per-metric step and
distance-ball projection in offset space, then
`tf.clip_by_value(x_adv_next, x_min, x_max)` in absolute space. -/
def updateStep (metric : Metric) (sqrt : α → α) (x xAdv grad : Fin n → α)
    (lr eps lo hi : α) : Fin n → α :=
  match metric with
  | Metric.l2 =>
      clipByValue
        (fun j => x j + clipByNorm sqrt (l2Delta sqrt x xAdv grad lr) eps j)
        lo hi
  | Metric.linf =>
      clipByValue
        (fun j => x j + clipByValue (linfDelta x xAdv grad lr) (-eps) eps j)
        lo hi

/-- The learning-rate tuning block of one loop iteration: append the
mean loss to the history, keep the last `plateau_length` entries
(`last_loss[-plateau_length:]`), and once the window is full halve the
learning rate (floored at `min_lr`) and reset the window when the trend
is unfavorable (`last < first` for `ut`, `last > first` otherwise). -/
def lrTune (goal : Goal) (minLr : α) (plateauLength : ℕ) (lr : α)
    (hist : List α) (meanLoss : α) : α × List α :=
  let h := hist ++ [meanLoss]
  let h := if plateauLength = 0 then h else h.drop (h.length - plateauLength)
  if h.length = plateauLength then
    if goal = Goal.ut ∧ h.getLastD 0 < h.headD 0 then
      (max (lr / 2) minLr, [])
    else if goal ≠ Goal.ut ∧ h.headD 0 < h.getLastD 0 then
      (max (lr / 2) minLr, [])
    else (lr, h)
  else (lr, h)

/-- `self._is_adversarial(y, y_target)`: predicted label of `x_adv`
differs from `y` for goals `ut`/`tm`, equals `y_target` for goal `t`. -/
def isAdversarial (model : Model α n c) (goal : Goal) (y yT : Fin c)
    (xAdv : Fin n → α) : Bool :=
  if goal = Goal.ut ∨ goal = Goal.tm then decide (model.label xAdv ≠ y)
  else decide (model.label xAdv = yT)

/-- The attack options set through `config`: magnitude `eps`, `sigma`,
initial learning rate, `min_lr`, `lr_tuning`, `plateau_length`,
`max_queries`. -/
structure AttackConfig (α : Type) where
  eps : α
  sigma : α
  lr0 : α
  minLr : α
  lrTuning : Bool
  plateauLength : ℕ
  maxQueries : ℕ

/-- The mutable state of one attack run: the candidate `x_adv`, the
query counter, the current learning rate, the `last_loss` window, and
the index of the next perturbation draw. -/
structure LoopState (α : Type) (n : ℕ) where
  xAdv : Fin n → α
  queries : ℕ
  lr : α
  lastLoss : List α
  iter : ℕ

/-- The attack's result: the returned candidate and
`self.details['queries']`. -/
structure AttackResult (α : Type) (n : ℕ) where
  xOut : Fin n → α
  queries : ℕ

variable [NeZero c]

/-- The antithetic perturbation batch consumed by iteration `st.iter`. -/
def iterBatch (nes : NES α n c) (perts : ℕ → Fin nes.k → Fin n → α)
    (st : LoopState α n) : Fin (nes.k + nes.k) → Fin n → α :=
  antithetic (perts st.iter)

/-- The loss vector fetched by `session.run((self.loss, ...))` in one
iteration. -/
def iterLoss (nes : NES α n c) (cfg : AttackConfig α) (y yT : Fin c)
    (perts : ℕ → Fin nes.k → Fin n → α) (st : LoopState α n) :
    Fin (nes.k + nes.k) → α :=
  fun s => nesLossAt nes.model nes.goal cfg.sigma y yT st.xAdv
    (iterBatch nes perts st s)

/-- The gradient estimate of one iteration. -/
def iterGrad (nes : NES α n c) (cfg : AttackConfig α) (y yT : Fin c)
    (perts : ℕ → Fin nes.k → Fin n → α) (st : LoopState α n) :
    Fin n → α :=
  estGrad nes.goal cfg.sigma (iterLoss nes cfg y yT perts st)
    (iterBatch nes perts st)

/-- One iteration of the `while queries < self.max_queries` body: run
the update step (which uses the incoming learning rate), add
`samples_per_draw` to the query counter, then apply the learning-rate
tuning block to the mean of the fetched loss. -/
def loopIter (nes : NES α n c) (cfg : AttackConfig α) (sqrt : α → α)
    (x : Fin n → α) (y yT : Fin c)
    (perts : ℕ → Fin nes.k → Fin n → α) (st : LoopState α n) :
    LoopState α n :=
  let xAdv' := updateStep nes.metric sqrt x st.xAdv
    (iterGrad nes cfg y yT perts st) st.lr cfg.eps
    nes.model.xMin nes.model.xMax
  let meanLoss := (∑ s, iterLoss nes cfg y yT perts st s) /
    ((nes.k + nes.k : ℕ) : α)
  let p := if cfg.lrTuning then
      lrTune nes.goal cfg.minLr cfg.plateauLength st.lr st.lastLoss meanLoss
    else (st.lr, st.lastLoss)
  ⟨xAdv', st.queries + (nes.k + nes.k), p.1, p.2, st.iter + 1⟩

/-- The fuel-indexed attack loop: while the query counter is below
`max_queries`, run one iteration and return early when the candidate
has become adversarial; otherwise return the current candidate and
query count. -/
def attackLoop (nes : NES α n c) (cfg : AttackConfig α) (sqrt : α → α)
    (x : Fin n → α) (y yT : Fin c)
    (perts : ℕ → Fin nes.k → Fin n → α) :
    ℕ → LoopState α n → AttackResult α n
  | 0, st => ⟨st.xAdv, st.queries⟩
  | fuel + 1, st =>
    if st.queries < cfg.maxQueries then
      let st' := loopIter nes cfg sqrt x y yT perts st
      if isAdversarial nes.model nes.goal y yT st'.xAdv then
        ⟨st'.xAdv, st'.queries⟩
      else attackLoop nes cfg sqrt x y yT perts fuel st'
    else ⟨st.xAdv, st.queries⟩

/-- `NES.attack(x, y, y_target)`: return `x` at once with zero recorded
queries when it is already adversarial, else run the loop from the
state `x_adv = x`, `queries = 0`, `lr = self.lr`.  A fuel of
`max_queries + 1` covers every reachable iteration (each iteration adds
`samples_per_draw ≥ 2` to the counter when `k ≥ 1`). -/
def nesAttack (nes : NES α n c) (cfg : AttackConfig α) (sqrt : α → α)
    (x : Fin n → α) (y yT : Fin c)
    (perts : ℕ → Fin nes.k → Fin n → α) : AttackResult α n :=
  if isAdversarial nes.model nes.goal y yT x then ⟨x, 0⟩
  else attackLoop nes cfg sqrt x y yT perts (cfg.maxQueries + 1)
    ⟨x, 0, cfg.lr0, [], 0⟩

/-- Modelled from the spec: the margin loss as §4.1 step 3 words it,
`max_{j != label}(score_j) - score_label`, with a genuine maximum over
the classes other than `label` (no `-99999` masking). -/
def specMarginLoss (l : Fin c → α) (y : Fin c)
    (h : (Finset.univ.erase y).Nonempty) : α :=
  (Finset.univ.erase y).sup' h l - l y

end Defs

section ConcreteInstances

/-- A two-class model with constant scores `(0, 1)` and constant
predicted label `0`; used for concrete runs that never succeed. -/
abbrev qModelConst : Model ℚ 1 2 :=
  ⟨fun _ => ![0, 1], fun _ => 0, -100, 100⟩

/-- A piecewise-linear score used to drive a concrete run into a
plateau: `0` on `(-∞, 0]`, slope `2` on `[0, 1]`, slope `-1` after. -/
abbrev rampScore (t : ℚ) : ℚ :=
  if t ≤ 0 then 0 else if t ≤ 1 then 2 * t else 3 - t

/-- A two-class model whose class-`1` score is `rampScore` of the first
coordinate, with constant predicted label `0`. -/
abbrev qModelRamp : Model ℚ 1 2 :=
  ⟨fun v j => if j = 0 then 0 else rampScore (v 0), fun _ => 0, -100, 100⟩

/-- A two-class model whose predicted label is always `1`, so an
untargeted attack with true label `0` succeeds immediately. -/
abbrev qModelAdv : Model ℚ 1 2 :=
  ⟨fun _ => ![0, 1], fun _ => 1, -100, 100⟩

/-- Concrete attack (`l_inf`, untargeted, `samples_per_draw = 2`)
against the constant model. -/
abbrev nesConst : NES ℚ 1 2 := ⟨qModelConst, Goal.ut, Metric.linf, 1⟩

/-- Concrete attack against the ramp model. -/
abbrev nesRamp : NES ℚ 1 2 := ⟨qModelRamp, Goal.ut, Metric.linf, 1⟩

/-- Concrete attack against the always-adversarial model. -/
abbrev nesAdv : NES ℚ 1 2 := ⟨qModelAdv, Goal.ut, Metric.linf, 1⟩

/-- A tiny query budget (`max_queries = 1 < samples_per_draw = 2`),
learning-rate tuning off. -/
abbrev cfgTiny : AttackConfig ℚ := ⟨100, 1, 1, 1 / 4, false, 2, 1⟩

/-- A budget of four queries with learning-rate tuning on and
`plateau_length = 2`. -/
abbrev cfgTune : AttackConfig ℚ := ⟨100, 1, 1, 1 / 4, true, 2, 4⟩

/-- The constant all-ones base perturbation stream. -/
abbrev pertsOne : ℕ → Fin 1 → Fin 1 → ℚ := fun _ _ _ => 1

/-- The zero input. -/
abbrev x0 : Fin 1 → ℚ := fun _ => 0

/-- Initial loop state of a run from `x0` with `lr = 1`. -/
abbrev stRamp0 : LoopState ℚ 1 := ⟨x0, 0, 1, [], 0⟩

/-- State after the first iteration of the ramp run. -/
abbrev stRamp1 : LoopState ℚ 1 :=
  loopIter nesRamp cfgTune id x0 0 0 pertsOne stRamp0

/-- State after the second iteration of the ramp run (the iteration
that detects the plateau). -/
abbrev stRamp2 : LoopState ℚ 1 :=
  loopIter nesRamp cfgTune id x0 0 0 pertsOne stRamp1

end ConcreteInstances

section RealInstances

/-- A one-class model over `ℝ` with input range `[0, 1]`. -/
noncomputable abbrev rModel : Model ℝ 1 1 := ⟨fun _ _ => 0, fun _ => 0, 0, 1⟩

/-- An `l_2` attack over `ℝ` against `rModel`. -/
noncomputable abbrev rNes : NES ℝ 1 1 := ⟨rModel, Goal.ut, Metric.l2, 1⟩

/-- A configuration over `ℝ` with `eps = 1/2`. -/
noncomputable abbrev rCfg : AttackConfig ℝ := ⟨1 / 2, 1, 1, 1 / 4, false, 2, 1⟩

/-- A loop state over `ℝ` at the midpoint of the input range. -/
noncomputable abbrev rSt : LoopState ℝ 1 := ⟨fun _ => 1 / 2, 0, 1, [], 0⟩

end RealInstances

section Lemmas

variable {α : Type} [LinearOrderedField α] {n c k : ℕ}

/-- Clamping toward an interval that contains `v` does not increase the
distance to `v`. -/
lemma clamp_sub_abs {a lo hi v : α} (hlo : lo ≤ v) (hhi : v ≤ hi) :
    |min (max a lo) hi - v| ≤ |a - v| := by
  have hlh : lo ≤ hi := hlo.trans hhi
  rcases le_total a lo with h1 | h1
  · rw [max_eq_right h1, min_eq_left hlh, abs_of_nonpos (by linarith),
      abs_of_nonpos (by linarith)]
    linarith
  · rcases le_total hi a with h2 | h2
    · rw [max_eq_left h1, min_eq_right h2, abs_of_nonneg (by linarith),
        abs_of_nonneg (by linarith)]
      linarith
    · rw [max_eq_left h1, min_eq_left h2]

/-- `tf.clip_by_value` lands inside `[lo, hi]` whenever `lo ≤ hi`. -/
lemma clipByValue_mem (t : Fin n → α) {lo hi : α} (hlh : lo ≤ hi)
    (j : Fin n) :
    lo ≤ clipByValue t lo hi j ∧ clipByValue t lo hi j ≤ hi :=
  ⟨le_min (le_trans (le_max_right _ _) (le_refl _)) hlh, min_le_right _ _⟩

/-- `tf.clip_by_value` does not increase the distance to a point of the
interval. -/
lemma clipByValue_sub_abs (t : Fin n → α) {lo hi v : α} (hlo : lo ≤ v)
    (hhi : v ≤ hi) (j : Fin n) :
    |clipByValue t lo hi j - v| ≤ |t j - v| :=
  clamp_sub_abs hlo hhi

/-- The tuned learning rate is either unchanged or exactly
`max (lr / 2) min_lr`. -/
lemma lrTune_fst (goal : Goal) (minLr : α) (plateauLength : ℕ) (lr : α)
    (hist : List α) (meanLoss : α) :
    (lrTune goal minLr plateauLength lr hist meanLoss).1 = lr ∨
      (lrTune goal minLr plateauLength lr hist meanLoss).1 =
        max (lr / 2) minLr := by
  unfold lrTune
  dsimp only
  split_ifs <;> simp

/-- One loop iteration adds exactly `samples_per_draw = k + k` queries. -/
lemma loopIter_queries [NeZero c] (nes : NES α n c) (cfg : AttackConfig α)
    (sqrt : α → α) (x : Fin n → α) (y yT : Fin c)
    (perts : ℕ → Fin nes.k → Fin n → α) (st : LoopState α n) :
    (loopIter nes cfg sqrt x y yT perts st).queries =
      st.queries + (nes.k + nes.k) :=
  rfl

/-- The learning rate after one loop iteration, written through
`lrTune`. -/
lemma loopIter_lr [NeZero c] (nes : NES α n c) (cfg : AttackConfig α)
    (sqrt : α → α) (x : Fin n → α) (y yT : Fin c)
    (perts : ℕ → Fin nes.k → Fin n → α) (st : LoopState α n) :
    (loopIter nes cfg sqrt x y yT perts st).lr = st.lr ∨
      (loopIter nes cfg sqrt x y yT perts st).lr =
        max (st.lr / 2) cfg.minLr := by
  have h : (loopIter nes cfg sqrt x y yT perts st).lr =
      (if cfg.lrTuning then
        lrTune nes.goal cfg.minLr cfg.plateauLength st.lr st.lastLoss
          ((∑ s, iterLoss nes cfg y yT perts st s) /
            ((nes.k + nes.k : ℕ) : α))
      else (st.lr, st.lastLoss)).1 := rfl
  rw [h]
  split
  · exact lrTune_fst _ _ _ _ _ _
  · exact Or.inl rfl

/-- Unfolding of the attack loop at zero fuel. -/
lemma attackLoop_zero [NeZero c] (nes : NES α n c) (cfg : AttackConfig α)
    (sqrt : α → α) (x : Fin n → α) (y yT : Fin c)
    (perts : ℕ → Fin nes.k → Fin n → α) (st : LoopState α n) :
    attackLoop nes cfg sqrt x y yT perts 0 st = ⟨st.xAdv, st.queries⟩ :=
  rfl

/-- Unfolding of the attack loop at successor fuel. -/
lemma attackLoop_succ [NeZero c] (nes : NES α n c) (cfg : AttackConfig α)
    (sqrt : α → α) (x : Fin n → α) (y yT : Fin c)
    (perts : ℕ → Fin nes.k → Fin n → α) (fuel : ℕ) (st : LoopState α n) :
    attackLoop nes cfg sqrt x y yT perts (fuel + 1) st =
      if st.queries < cfg.maxQueries then
        if isAdversarial nes.model nes.goal y yT
            (loopIter nes cfg sqrt x y yT perts st).xAdv then
          ⟨(loopIter nes cfg sqrt x y yT perts st).xAdv,
            (loopIter nes cfg sqrt x y yT perts st).queries⟩
        else attackLoop nes cfg sqrt x y yT perts fuel
          (loopIter nes cfg sqrt x y yT perts st)
      else ⟨st.xAdv, st.queries⟩ :=
  rfl

/-- `sup'` over the two-element type `Fin 2` is the maximum of the two
values. -/
lemma sup'_univ_fin_two [LinearOrder β] (f : Fin 2 → β)
    (h : (Finset.univ : Finset (Fin 2)).Nonempty) :
    Finset.univ.sup' h f = max (f 0) (f 1) := by
  apply le_antisymm
  · apply Finset.sup'_le
    intro j _
    fin_cases j
    · exact le_max_left _ _
    · exact le_max_right _ _
  · exact max_le (Finset.le_sup' f (Finset.mem_univ 0))
      (Finset.le_sup' f (Finset.mem_univ 1))

end Lemmas

section RealLemmas

variable {n : ℕ}

/-- `tf.norm` is nonnegative over `ℝ`. -/
lemma tfNorm_nonneg (t : Fin n → ℝ) : 0 ≤ tfNorm Real.sqrt t :=
  Real.sqrt_nonneg _

/-- Scaling a tensor scales its `tf.norm` by the absolute factor. -/
lemma tfNorm_mul_const (t : Fin n → ℝ) (s : ℝ) :
    tfNorm Real.sqrt (fun j => t j * s) = tfNorm Real.sqrt t * |s| := by
  unfold tfNorm
  have h : ∑ j, (t j * s) ^ 2 = (∑ j, t j ^ 2) * s ^ 2 := by
    rw [Finset.sum_mul]
    simp [mul_pow]
  rw [h, Real.sqrt_mul (by positivity), Real.sqrt_sq_eq_abs]

/-- `tf.norm` is monotone under elementwise domination in absolute
value. -/
lemma tfNorm_mono {a b : Fin n → ℝ} (h : ∀ j, |a j| ≤ |b j|) :
    tfNorm Real.sqrt a ≤ tfNorm Real.sqrt b := by
  apply Real.sqrt_le_sqrt
  apply Finset.sum_le_sum
  intro j _
  have h2 : |a j| ^ 2 ≤ |b j| ^ 2 := pow_le_pow_left₀ (abs_nonneg _) (h j) 2
  rwa [sq_abs, sq_abs] at h2

/-- `tf.clip_by_norm` projects into the `l_2` ball of radius `eps`. -/
lemma clipByNorm_norm_le (t : Fin n → ℝ) {eps : ℝ} (he : 0 ≤ eps) :
    tfNorm Real.sqrt (clipByNorm Real.sqrt t eps) ≤ eps := by
  set M := max (tfNorm Real.sqrt t) eps with hM
  have hM0 : 0 ≤ M := le_trans he (le_max_right _ _)
  have hclip : clipByNorm Real.sqrt t eps = fun j => t j * (eps / M) := by
    funext j
    rw [clipByNorm, ← hM, mul_div_assoc]
  rw [hclip, tfNorm_mul_const]
  rcases eq_or_lt_of_le hM0 with h0 | h0
  · have heps0 : eps = 0 := le_antisymm (h0 ▸ le_max_right _ _) he
    simp [heps0]
  · rw [abs_of_nonneg (div_nonneg he hM0)]
    calc tfNorm Real.sqrt t * (eps / M) ≤ M * (eps / M) :=
        mul_le_mul_of_nonneg_right (le_max_left _ _) (div_nonneg he hM0)
    _ = eps := by field_simp

end RealLemmas

section LossLemmas

variable {α : Type} [LinearOrderedField α] {c : ℕ}

/-- `logit_this` extracts the score of the masked label. -/
lemma logitThis_eq (l : Fin c → α) (y : Fin c) : logitThis l y = l y := by
  simp [logitThis, oneHot, ite_mul, Finset.sum_ite_eq']

/-- When some other class scores at least `l y - 99999`, the `-99999`
masking trick computes the true maximum over the classes other than
`y`. -/
lemma logitThat_eq [NeZero c] (l : Fin c → α) (y : Fin c)
    (he : (Finset.univ.erase y).Nonempty)
    (hb : ∃ j ∈ Finset.univ.erase y, l y - 99999 ≤ l j) :
    logitThat l y = (Finset.univ.erase y).sup' he l := by
  unfold logitThat
  have hset : (Finset.univ : Finset (Fin c)) =
      insert y (Finset.univ.erase y) :=
    (Finset.insert_erase (Finset.mem_univ y)).symm
  rw [Finset.sup'_congr (univNonempty c) hset (fun j _ => rfl),
    Finset.sup'_insert he]
  have hy : l y - 99999 * oneHot y y = l y - 99999 := by
    simp [oneHot]
  have herase : (Finset.univ.erase y).sup'
      (α := α) he (fun j => l j - 99999 * oneHot y j) =
      (Finset.univ.erase y).sup' he l := by
    apply Finset.sup'_congr he rfl
    intro j hj
    simp [oneHot, Finset.ne_of_mem_erase hj]
  rw [hy, herase]
  obtain ⟨j, hj, hle⟩ := hb
  exact sup_eq_right.2 (le_trans hle (Finset.le_sup' l hj))

/-- The margin loss computed by the graph agrees with the plain margin
`max_{j ≠ y} l j - l y` under the same side condition. -/
lemma marginLoss_eq [NeZero c] (l : Fin c → α) (y : Fin c)
    (he : (Finset.univ.erase y).Nonempty)
    (hb : ∃ j ∈ Finset.univ.erase y, l y - 99999 ≤ l j) :
    marginLoss l y = specMarginLoss l y he := by
  rw [marginLoss, specMarginLoss, logitThis_eq, logitThat_eq l y he hb]

end LossLemmas

section Evaluation

/-- `Finset.sum` over `Fin (1 + 1)` written out. -/
lemma sum_fin_two' {β : Type} [AddCommMonoid β] (f : Fin (1 + 1) → β) :
    ∑ s, f s = f ⟨0, by omega⟩ + f ⟨1, by omega⟩ := by
  rw [Fin.sum_univ_two f]
  rfl

/-- The antithetic batch of the first ramp-run iteration. -/
lemma rampBatch0 : iterBatch nesRamp pertsOne stRamp0 =
    fun (s : Fin (1 + 1)) (_ : Fin 1) => if s.val < 1 then (1 : ℚ) else -1 := by
  funext s j
  simp [iterBatch, antithetic, pertsOne]
  split <;> rfl

/-- The loss vector of the first ramp-run iteration. -/
lemma rampLoss0 : iterLoss nesRamp cfgTune 0 0 pertsOne stRamp0 =
    fun (s : Fin (1 + 1)) => if s.val < 1 then (2 : ℚ) else 0 := by
  funext s
  simp only [iterLoss]
  rw [rampBatch0]
  by_cases hs : s.val < 1 <;>
    simp [hs, nesLossAt, marginLoss, logitThis, logitThat, nesLabel, oneHot,
      sup'_univ_fin_two, Fin.sum_univ_two, rampScore, x0,
      show ((1 : Fin 2) = 0) ↔ False by decide] <;> norm_num

/-- The gradient estimate of the first ramp-run iteration. -/
lemma rampGrad0 : iterGrad nesRamp cfgTune 0 0 pertsOne stRamp0 = fun _ => 1 := by
  funext j
  simp [iterGrad, estGrad]
  simp only [estGradRaw]
  rw [rampLoss0, rampBatch0, sum_fin_two']
  norm_num

/-- The loop state after the first ramp-run iteration: candidate `1`,
two queries, learning rate still `1`, loss window `[1]`. -/
lemma rampState1 : stRamp1 = ⟨fun _ => 1, 2, 1, [1], 1⟩ := by
  have hmean : (∑ s, iterLoss nesRamp cfgTune 0 0 pertsOne stRamp0 s) /
      ((nesRamp.k + nesRamp.k : ℕ) : ℚ) = 1 := by
    rw [rampLoss0, sum_fin_two']
    norm_num
  show loopIter nesRamp cfgTune id x0 0 0 pertsOne stRamp0 = _
  simp only [loopIter]
  rw [LoopState.mk.injEq]
  refine ⟨?_, ?_, ?_, ?_, rfl⟩
  · funext j
    rw [rampGrad0]
    norm_num [updateStep, clipByValue, linfDelta, tfSign, x0]
  · rfl
  · rw [hmean]
    norm_num [lrTune]
  · rw [hmean]
    norm_num [lrTune]

/-- The antithetic batch of the second ramp-run iteration. -/
lemma rampBatch1 : iterBatch nesRamp pertsOne ⟨fun _ => 1, 2, 1, [1], 1⟩ =
    fun (s : Fin (1 + 1)) (_ : Fin 1) => if s.val < 1 then (1 : ℚ) else -1 := by
  funext s j
  simp [iterBatch, antithetic, pertsOne]
  split <;> rfl

/-- The loss vector of the second ramp-run iteration. -/
lemma rampLoss1 : iterLoss nesRamp cfgTune 0 0 pertsOne ⟨fun _ => 1, 2, 1, [1], 1⟩ =
    fun (s : Fin (1 + 1)) => if s.val < 1 then (1 : ℚ) else 0 := by
  funext s
  simp only [iterLoss]
  rw [rampBatch1]
  by_cases hs : s.val < 1 <;>
    simp [hs, nesLossAt, marginLoss, logitThis, logitThat, nesLabel, oneHot,
      sup'_univ_fin_two, Fin.sum_univ_two, rampScore,
      show ((1 : Fin 2) = 0) ↔ False by decide] <;> norm_num

/-- The gradient estimate of the second ramp-run iteration. -/
lemma rampGrad1 : iterGrad nesRamp cfgTune 0 0 pertsOne ⟨fun _ => 1, 2, 1, [1], 1⟩ =
    fun _ => 1 / 2 := by
  funext j
  simp [iterGrad, estGrad]
  simp only [estGradRaw]
  rw [rampLoss1, rampBatch1, sum_fin_two']
  norm_num

/-- The loop state after the second ramp-run iteration: the plateau is
detected (`1/2 < 1` over the full window `[1, 1/2]`), so the learning
rate drops to `1/2` and the window resets; the candidate moved to `2`
using the incoming rate `1`. -/
lemma rampState2 : stRamp2 = ⟨fun _ => 2, 4, 1 / 2, [], 2⟩ := by
  have hmean : (∑ s, iterLoss nesRamp cfgTune 0 0 pertsOne
      ⟨fun _ => 1, 2, 1, [1], 1⟩ s) /
      ((nesRamp.k + nesRamp.k : ℕ) : ℚ) = 1 / 2 := by
    rw [rampLoss1, sum_fin_two']
    norm_num
  show loopIter nesRamp cfgTune id x0 0 0 pertsOne stRamp1 = _
  rw [rampState1]
  simp only [loopIter]
  rw [LoopState.mk.injEq]
  refine ⟨?_, rfl, ?_, ?_, rfl⟩
  · funext j
    rw [rampGrad1]
    norm_num [updateStep, clipByValue, linfDelta, tfSign, x0]
  · rw [hmean]
    norm_num [lrTune]
  · rw [hmean]
    norm_num [lrTune]

end Evaluation

section LoopLemmas

variable {α : Type} [LinearOrderedField α] {n c : ℕ} [NeZero c]

/-- The attack loop preserves divisibility of the query counter by
`samples_per_draw`. -/
lemma attackLoop_queries_dvd (nes : NES α n c) (cfg : AttackConfig α)
    (sqrt : α → α) (x : Fin n → α) (y yT : Fin c)
    (perts : ℕ → Fin nes.k → Fin n → α) :
    ∀ (fuel : ℕ) (st : LoopState α n), (nes.k + nes.k) ∣ st.queries →
      (nes.k + nes.k) ∣ (attackLoop nes cfg sqrt x y yT perts fuel st).queries := by
  intro fuel
  induction fuel with
  | zero => exact fun st h => h
  | succ f ih =>
    intro st h
    rw [attackLoop_succ]
    split
    · split
      · show (nes.k + nes.k) ∣ (loopIter nes cfg sqrt x y yT perts st).queries
        rw [loopIter_queries]
        exact dvd_add h dvd_rfl
      · exact ih _ (by rw [loopIter_queries]; exact dvd_add h dvd_rfl)
    · exact h

end LoopLemmas

section Claims

/-- C5: for every run, the recorded query count at return is an exact
multiple of `samples_per_draw`: it starts at `0` and is incremented
only by `samples_per_draw` once per loop iteration; the queries issued
by the success-predicate check are never added to it. -/
theorem nes_c5_query_accounting {α : Type} [LinearOrderedField α]
    {n c : ℕ} [NeZero c] (nes : NES α n c) (cfg : AttackConfig α)
    (sqrt : α → α) (x : Fin n → α) (y yT : Fin c)
    (perts : ℕ → Fin nes.k → Fin n → α) :
    nes.samplesPerDraw ∣ (nesAttack nes cfg sqrt x y yT perts).queries := by
  show nes.k + nes.k ∣ _
  unfold nesAttack
  split
  · exact dvd_zero _
  · exact attackLoop_queries_dvd nes cfg sqrt x y yT perts _ _ (dvd_zero _)

/-- Witness for C5 at a concrete run: the constant-model attack with a
budget of one query records a query count divisible by
`samples_per_draw = 2`. -/
theorem nes_c5_query_accounting_witness :
    nesConst.samplesPerDraw ∣
      (nesAttack nesConst cfgTiny id x0 0 0 pertsOne).queries :=
  nes_c5_query_accounting nesConst cfgTiny id x0 0 0 pertsOne

/-- C7: for every input on which the success predicate already holds,
the attack returns the input unchanged and records a query count of
`0`. -/
theorem nes_c7_early_exit {α : Type} [LinearOrderedField α]
    {n c : ℕ} [NeZero c] (nes : NES α n c) (cfg : AttackConfig α)
    (sqrt : α → α) (x : Fin n → α) (y yT : Fin c)
    (perts : ℕ → Fin nes.k → Fin n → α)
    (hadv : isAdversarial nes.model nes.goal y yT x = true) :
    (nesAttack nes cfg sqrt x y yT perts).xOut = x ∧
      (nesAttack nes cfg sqrt x y yT perts).queries = 0 := by
  unfold nesAttack
  rw [if_pos hadv]
  exact ⟨rfl, rfl⟩

/-- Witness for C7: the always-label-`1` model is already adversarial
for true label `0`, so the attack returns `x0` with zero queries. -/
theorem nes_c7_early_exit_witness :
    isAdversarial nesAdv.model nesAdv.goal 0 0 x0 = true ∧
      (nesAttack nesAdv cfgTiny id x0 0 0 pertsOne).xOut = x0 ∧
      (nesAttack nesAdv cfgTiny id x0 0 0 pertsOne).queries = 0 :=
  ⟨by decide, nes_c7_early_exit nesAdv cfgTiny id x0 0 0 pertsOne (by decide)⟩

/-- C9: for every distance metric other than `l_2` and `l_inf`,
construction raises `NotImplementedError`; for `l_2` and `l_inf` it
succeeds. -/
theorem nes_c9_metric_validation {α : Type} {n c : ℕ}
    (model : Model α n c) (goal : Goal) (dm : String) (spd : ℕ)
    (h2 : dm ≠ "l_2") (hinf : dm ≠ "l_inf") :
    mkNES model goal dm spd = Except.error ("NotImplementedError") ∧
      mkNES model goal ("l_2") spd =
        Except.ok ⟨model, goal, Metric.l2, spd / 2⟩ ∧
      mkNES model goal ("l_inf") spd =
        Except.ok ⟨model, goal, Metric.linf, spd / 2⟩ := by
  refine ⟨?_, ?_, ?_⟩
  · unfold mkNES
    rw [if_neg h2, if_neg hinf]
  · unfold mkNES
    rw [if_pos rfl]
  · unfold mkNES
    rw [if_neg (by decide), if_pos rfl]

/-- Witness for C9 at the concrete metric string `"l_1"`. -/
theorem nes_c9_metric_validation_witness :
    mkNES qModelConst Goal.ut ("l_1") 10 = Except.error ("NotImplementedError") ∧
      mkNES qModelConst Goal.ut ("l_2") 10 =
        Except.ok ⟨qModelConst, Goal.ut, Metric.l2, 5⟩ ∧
      mkNES qModelConst Goal.ut ("l_inf") 10 =
        Except.ok ⟨qModelConst, Goal.ut, Metric.linf, 5⟩ :=
  nes_c9_metric_validation qModelConst Goal.ut "l_1" 10 (by decide) (by decide)

/-- C10: the update step is total on an all-zero gradient estimate: in
`l_2` mode the gradient norm is floored at `1e-12` and the normalized
step vanishes; in `l_inf` mode `sign 0 = 0`; in both cases the
offset from the origin entering the ball projection is unchanged. -/
theorem nes_c10_zero_gradient {α : Type} [LinearOrderedField α]
    {n : ℕ} (sqrt : α → α) (hs : sqrt 0 = 0) (x xAdv : Fin n → α)
    (lr : α) :
    max ((1 : α) / 10 ^ 12) (tfNorm sqrt (fun _ : Fin n => 0)) =
        (1 : α) / 10 ^ 12 ∧
      l2Delta sqrt x xAdv (fun _ => 0) lr = (fun j => xAdv j - x j) ∧
      linfDelta x xAdv (fun _ => 0) lr = (fun j => xAdv j - x j) ∧
      tfSign (0 : α) = 0 := by
  have h0 : tfNorm sqrt (fun _ : Fin n => (0 : α)) = 0 := by
    simp [tfNorm, hs]
  refine ⟨?_, ?_, ?_, ?_⟩
  · rw [h0]
    exact max_eq_left (by positivity)
  · funext j
    simp [l2Delta]
  · funext j
    simp [linfDelta, tfSign]
  · simp [tfSign]

/-- Witness for C10 over `ℚ` with the identity in place of the square
root (`id 0 = 0`). -/
theorem nes_c10_zero_gradient_witness :
    max ((1 : ℚ) / 10 ^ 12) (tfNorm id (fun _ : Fin 1 => 0)) =
        (1 : ℚ) / 10 ^ 12 ∧
      l2Delta id (fun _ : Fin 1 => (3 : ℚ)) (fun _ => 4) (fun _ => 0) 5 =
        (fun j => (fun _ : Fin 1 => (4 : ℚ)) j - (fun _ : Fin 1 => (3 : ℚ)) j) ∧
      linfDelta (fun _ : Fin 1 => (3 : ℚ)) (fun _ => 4) (fun _ => 0) 5 =
        (fun j => (fun _ : Fin 1 => (4 : ℚ)) j - (fun _ : Fin 1 => (3 : ℚ)) j) ∧
      tfSign (0 : ℚ) = 0 :=
  nes_c10_zero_gradient id rfl (fun _ => 3) (fun _ => 4) 5

/-- C6: within a run (with a sane schedule, `min_lr ≤ lr` and
`0 ≤ lr`), the learning rate after an iteration is either unchanged or
exactly `max (lr / 2) min_lr`; it never increases and never drops below
`min_lr` in the step that halves it. -/
theorem nes_c6_lr_monotone {α : Type} [LinearOrderedField α]
    {n c : ℕ} [NeZero c] (nes : NES α n c) (cfg : AttackConfig α)
    (sqrt : α → α) (x : Fin n → α) (y yT : Fin c)
    (perts : ℕ → Fin nes.k → Fin n → α) (st : LoopState α n)
    (hmin : cfg.minLr ≤ st.lr) (hpos : 0 ≤ st.lr) :
    ((loopIter nes cfg sqrt x y yT perts st).lr = st.lr ∨
        (loopIter nes cfg sqrt x y yT perts st).lr =
          max (st.lr / 2) cfg.minLr) ∧
      (loopIter nes cfg sqrt x y yT perts st).lr ≤ st.lr ∧
      cfg.minLr ≤ (loopIter nes cfg sqrt x y yT perts st).lr := by
  have h := loopIter_lr nes cfg sqrt x y yT perts st
  refine ⟨h, ?_, ?_⟩
  · rcases h with h | h
    · rw [h]
    · rw [h]
      exact max_le (by linarith) hmin
  · rcases h with h | h
    · rw [h]
      exact hmin
    · rw [h]
      exact le_max_right _ _

/-- Witness for C6 on the concrete ramp run (`min_lr = 1/4 ≤ lr = 1`). -/
theorem nes_c6_lr_monotone_witness :
    ((loopIter nesRamp cfgTune id x0 0 0 pertsOne stRamp0).lr = stRamp0.lr ∨
        (loopIter nesRamp cfgTune id x0 0 0 pertsOne stRamp0).lr =
          max (stRamp0.lr / 2) cfgTune.minLr) ∧
      (loopIter nesRamp cfgTune id x0 0 0 pertsOne stRamp0).lr ≤ stRamp0.lr ∧
      cfgTune.minLr ≤ (loopIter nesRamp cfgTune id x0 0 0 pertsOne stRamp0).lr :=
  nes_c6_lr_monotone nesRamp cfgTune id x0 0 0 pertsOne stRamp0
    (by norm_num) (by norm_num)

/-- C4 (amended): the candidate update of an iteration always uses the
learning rate the iteration started with — the tuning block runs after
the update, so a halving detected in iteration `m` first affects the
update of iteration `m + 1`; the tuned rate is either unchanged or
exactly `max (lr / 2) min_lr`. -/
theorem nes_c4_update_before_tuning {α : Type} [LinearOrderedField α]
    {n c : ℕ} [NeZero c] (nes : NES α n c) (cfg : AttackConfig α)
    (sqrt : α → α) (x : Fin n → α) (y yT : Fin c)
    (perts : ℕ → Fin nes.k → Fin n → α) (st : LoopState α n) :
    (loopIter nes cfg sqrt x y yT perts st).xAdv =
        updateStep nes.metric sqrt x st.xAdv
          (iterGrad nes cfg y yT perts st) st.lr cfg.eps
          nes.model.xMin nes.model.xMax ∧
      ((loopIter nes cfg sqrt x y yT perts st).lr = st.lr ∨
        (loopIter nes cfg sqrt x y yT perts st).lr =
          max (st.lr / 2) cfg.minLr) :=
  ⟨rfl, loopIter_lr nes cfg sqrt x y yT perts st⟩

/-- Witness for C4 (amended) on the first iteration of the concrete
ramp run. -/
theorem nes_c4_update_before_tuning_witness :
    (loopIter nesRamp cfgTune id x0 0 0 pertsOne stRamp0).xAdv =
        updateStep nesRamp.metric id x0 stRamp0.xAdv
          (iterGrad nesRamp cfgTune 0 0 pertsOne stRamp0) stRamp0.lr
          cfgTune.eps nesRamp.model.xMin nesRamp.model.xMax ∧
      ((loopIter nesRamp cfgTune id x0 0 0 pertsOne stRamp0).lr = stRamp0.lr ∨
        (loopIter nesRamp cfgTune id x0 0 0 pertsOne stRamp0).lr =
          max (stRamp0.lr / 2) cfgTune.minLr) :=
  nes_c4_update_before_tuning nesRamp cfgTune id x0 0 0 pertsOne stRamp0

/-- C4 (counterexample): in the concrete ramp run the plateau is
detected in the second iteration (its learning rate drops from `1` to
`1/2`), yet that iteration's candidate moves by the incoming rate `1`
(from `1` to `2`), not by the halved rate `1/2` (which would have given
`3/2`). -/
theorem nes_c4_update_before_tuning_cex :
    stRamp2.lr = max (stRamp1.lr / 2) cfgTune.minLr ∧
      stRamp2.lr ≠ stRamp1.lr ∧
      stRamp2.xAdv 0 = stRamp1.xAdv 0 + stRamp1.lr ∧
      stRamp2.xAdv 0 ≠ stRamp1.xAdv 0 + stRamp2.lr := by
  rw [rampState1, rampState2]
  norm_num

/-- C8: the perturbation batch of size `2k` is `k` base draws followed
by their negations — `perturbation[i + k] = -perturbation[i]` for all
`i < k` — so the batch sums to the zero tensor. -/
theorem nes_c8_antithetic {α : Type} [LinearOrderedField α]
    {n k : ℕ} (base : Fin k → Fin n → α) :
    (∀ i : Fin k, antithetic base (Fin.natAdd k i) =
        fun j => -(antithetic base (Fin.castAdd k i) j)) ∧
      ∀ j, ∑ s, antithetic base s j = 0 := by
  have hneg : ∀ (i : Fin k) (j : Fin n),
      antithetic base (Fin.natAdd k i) j =
        -(antithetic base (Fin.castAdd k i) j) := by
    intro i j
    have h1 : ¬ ((Fin.natAdd k i : Fin (k + k)) : ℕ) < k := by
      show ¬ k + (i : ℕ) < k
      omega
    have h2 : ((Fin.castAdd k i : Fin (k + k)) : ℕ) < k := i.isLt
    rw [antithetic, dif_neg h1, antithetic, dif_pos h2]
    have h3 : (⟨((Fin.natAdd k i : Fin (k + k)) : ℕ) - k, by omega⟩ : Fin k) = i := by
      apply Fin.ext
      show k + (i : ℕ) - k = i
      omega
    have h4 : (⟨((Fin.castAdd k i : Fin (k + k)) : ℕ), h2⟩ : Fin k) = i :=
      Fin.ext rfl
    rw [h3, h4]
  refine ⟨fun i => funext (hneg i), fun j => ?_⟩
  rw [Fin.sum_univ_add (f := fun s => antithetic base s j)]
  rw [Finset.sum_congr rfl (fun i _ => hneg i j), Finset.sum_neg_distrib]
  exact add_neg_cancel _

/-- Witness for C8 at the concrete base draw of the ramp run. -/
theorem nes_c8_antithetic_witness :
    (∀ i : Fin 1, antithetic (pertsOne 0) (Fin.natAdd 1 i) =
        fun j => -(antithetic (pertsOne 0) (Fin.castAdd 1 i) j)) ∧
      ∀ j, ∑ s, antithetic (pertsOne 0) s j = 0 :=
  nes_c8_antithetic (pertsOne 0)

/-- C3 (amended): when `0 < max_queries < samples_per_draw` and the
input is not already adversarial, the loop body executes exactly once
(the `while queries < max_queries` guard passes at `queries = 0`), the
returned candidate is the once-updated candidate, and the recorded
query count is `samples_per_draw`, not `0`. -/
theorem nes_c3_small_budget {α : Type} [LinearOrderedField α]
    {n c : ℕ} [NeZero c] (nes : NES α n c) (cfg : AttackConfig α)
    (sqrt : α → α) (x : Fin n → α) (y yT : Fin c)
    (perts : ℕ → Fin nes.k → Fin n → α)
    (h0 : 0 < cfg.maxQueries) (h1 : cfg.maxQueries < nes.k + nes.k)
    (hadv : isAdversarial nes.model nes.goal y yT x = false) :
    nesAttack nes cfg sqrt x y yT perts =
      ⟨(loopIter nes cfg sqrt x y yT perts ⟨x, 0, cfg.lr0, [], 0⟩).xAdv,
        nes.k + nes.k⟩ := by
  unfold nesAttack
  rw [if_neg (by simp [hadv])]
  obtain ⟨q, hq⟩ : ∃ q, cfg.maxQueries = q + 1 :=
    ⟨cfg.maxQueries - 1, by omega⟩
  rw [hq, attackLoop_succ]
  set st0 : LoopState α n := ⟨x, 0, cfg.lr0, [], 0⟩ with hst0
  have hq2 : (loopIter nes cfg sqrt x y yT perts st0).queries =
      nes.k + nes.k := by
    rw [loopIter_queries]
    show 0 + (nes.k + nes.k) = nes.k + nes.k
    omega
  rw [if_pos (show st0.queries < cfg.maxQueries from h0)]
  split
  · rw [AttackResult.mk.injEq]
    exact ⟨rfl, hq2⟩
  · rw [attackLoop_succ,
      if_neg (show ¬ (loopIter nes cfg sqrt x y yT perts st0).queries <
          cfg.maxQueries by rw [hq2]; omega)]
    rw [AttackResult.mk.injEq]
    exact ⟨rfl, hq2⟩

/-- Witness for C3 (amended) on the concrete constant-model run with
`max_queries = 1` and `samples_per_draw = 2`. -/
theorem nes_c3_small_budget_witness :
    0 < cfgTiny.maxQueries ∧ cfgTiny.maxQueries < nesConst.k + nesConst.k ∧
      isAdversarial nesConst.model nesConst.goal 0 0 x0 = false ∧
      nesAttack nesConst cfgTiny id x0 0 0 pertsOne =
        ⟨(loopIter nesConst cfgTiny id x0 0 0 pertsOne
            ⟨x0, 0, cfgTiny.lr0, [], 0⟩).xAdv, nesConst.k + nesConst.k⟩ :=
  ⟨by decide, by decide, by decide,
    nes_c3_small_budget nesConst cfgTiny id x0 0 0 pertsOne
      (by decide) (by decide) (by decide)⟩

/-- C3 (counterexample): on the concrete run with `max_queries = 1`,
`samples_per_draw = 2` and a never-adversarial input, the recorded
query count is `2`, not `0` — the loop body ran once, not zero
times. -/
theorem nes_c3_small_budget_cex :
    cfgTiny.maxQueries < nesConst.samplesPerDraw ∧
      isAdversarial nesConst.model nesConst.goal 0 0 x0 = false ∧
      (nesAttack nesConst cfgTiny id x0 0 0 pertsOne).queries =
        nesConst.samplesPerDraw ∧
      (nesAttack nesConst cfgTiny id x0 0 0 pertsOne).queries ≠ 0 := by
  decide

/-- C2 (amended): the per-sample loss is the margin
`max_{j ≠ label} score_j - score_label` with scores evaluated at
`current + sigma * perturbation` (provided some non-label class scores
at least `score_label - 99999`, so the masking trick computes the true
maximum) — but the label is the true label `y` only for goal `ut`; for
goals `tm` and `t` the target label is used instead. -/
theorem nes_c2_margin_label {α : Type} [LinearOrderedField α]
    {n c : ℕ} [NeZero c] (model : Model α n c) (goal : Goal) (sigma : α)
    (y yT : Fin c) (xAdv pert : Fin n → α)
    (he : (Finset.univ.erase (nesLabel goal y yT)).Nonempty)
    (hb : ∃ j ∈ Finset.univ.erase (nesLabel goal y yT),
      model.logits (fun i => xAdv i + sigma * pert i) (nesLabel goal y yT) -
        99999 ≤ model.logits (fun i => xAdv i + sigma * pert i) j) :
    nesLossAt model goal sigma y yT xAdv pert =
        specMarginLoss (model.logits fun i => xAdv i + sigma * pert i)
          (nesLabel goal y yT) he ∧
      nesLabel Goal.ut y yT = y ∧ nesLabel Goal.tm y yT = yT ∧
      nesLabel Goal.t y yT = yT :=
  ⟨marginLoss_eq _ _ he hb, rfl, rfl, rfl⟩

/-- Witness for C2 (amended) on the constant-score model with goal
`ut`. -/
theorem nes_c2_margin_label_witness :
    nesLossAt qModelConst Goal.ut 1 (0 : Fin 2) 1 x0 x0 =
        specMarginLoss (qModelConst.logits fun i => x0 i + 1 * x0 i)
          (nesLabel Goal.ut (0 : Fin 2) 1) (by decide) ∧
      nesLabel Goal.ut (0 : Fin 2) 1 = 0 ∧
      nesLabel Goal.tm (0 : Fin 2) 1 = 1 ∧
      nesLabel Goal.t (0 : Fin 2) 1 = 1 :=
  nes_c2_margin_label qModelConst Goal.ut 1 0 1 x0 x0 (by decide)
    ⟨1, by decide, by norm_num [qModelConst, nesLabel]⟩

/-- C2 (counterexample): with goal `tm`, true label `0` and target
label `1` on the constant-score model `(0, 1)`, the loss computed by
the code is `-1` (it masks the target label `1`), while the margin at
the true label `0` demanded by the claim is `1`. -/
theorem nes_c2_margin_label_cex :
    nesLossAt qModelConst Goal.tm 1 (0 : Fin 2) 1 x0 x0 = -1 ∧
      specMarginLoss (qModelConst.logits fun i => x0 i + 1 * x0 i)
        (0 : Fin 2) ⟨1, by decide⟩ = 1 ∧
      (-1 : ℚ) ≠ 1 := by
  refine ⟨?_, ?_, by norm_num⟩
  · norm_num [nesLossAt, marginLoss, logitThis, logitThat, nesLabel, oneHot,
      qModelConst, sup'_univ_fin_two, Fin.sum_univ_two, x0,
      show ((0 : Fin 2) = 1) ↔ False by decide,
      show ((1 : Fin 2) = 1) ↔ True by decide,
      show (Goal.tm = Goal.ut) ↔ False by decide]
  · rw [specMarginLoss,
      Finset.sup'_congr ⟨1, by decide⟩
        (show Finset.univ.erase (0 : Fin 2) = {1} by decide) (fun j _ => rfl),
      Finset.sup'_singleton]
    norm_num [qModelConst]

/-- C1: after every update step of the loop, the candidate is feasible:
it lies elementwise in the model's value range `[x_min, x_max]`
(assuming the origin does and `x_min ≤ x_max`), and its offset from the
origin satisfies the distance constraint — `l_2` norm at most `eps` for
metric `l_2`, elementwise absolute value at most `eps` for metric
`l_inf` (for a nonnegative `eps`). -/
theorem nes_c1_feasibility {n c : ℕ} [NeZero c] (nes : NES ℝ n c)
    (cfg : AttackConfig ℝ) (x : Fin n → ℝ) (y yT : Fin c)
    (perts : ℕ → Fin nes.k → Fin n → ℝ) (st : LoopState ℝ n)
    (hx : ∀ j, nes.model.xMin ≤ x j ∧ x j ≤ nes.model.xMax)
    (heps : 0 ≤ cfg.eps) (hrange : nes.model.xMin ≤ nes.model.xMax) :
    (∀ j, nes.model.xMin ≤
        (loopIter nes cfg Real.sqrt x y yT perts st).xAdv j ∧
        (loopIter nes cfg Real.sqrt x y yT perts st).xAdv j ≤
          nes.model.xMax) ∧
      (nes.metric = Metric.l2 →
        tfNorm Real.sqrt (fun j =>
          (loopIter nes cfg Real.sqrt x y yT perts st).xAdv j - x j) ≤
          cfg.eps) ∧
      (nes.metric = Metric.linf →
        ∀ j, |(loopIter nes cfg Real.sqrt x y yT perts st).xAdv j - x j| ≤
          cfg.eps) := by
  have hupd : (loopIter nes cfg Real.sqrt x y yT perts st).xAdv =
      updateStep nes.metric Real.sqrt x st.xAdv
        (iterGrad nes cfg y yT perts st) st.lr cfg.eps
        nes.model.xMin nes.model.xMax := rfl
  rw [hupd]
  set g := iterGrad nes cfg y yT perts st with hg
  refine ⟨?_, ?_, ?_⟩
  · intro j
    cases hm : nes.metric
    · exact clipByValue_mem (fun i => x i +
        clipByNorm Real.sqrt (l2Delta Real.sqrt x st.xAdv g st.lr)
          cfg.eps i) hrange j
    · exact clipByValue_mem (fun i => x i +
        clipByValue (linfDelta x st.xAdv g st.lr) (-cfg.eps) cfg.eps i)
        hrange j
  · intro hm
    rw [hm]
    show tfNorm Real.sqrt (fun j =>
        clipByValue (fun i => x i +
            clipByNorm Real.sqrt (l2Delta Real.sqrt x st.xAdv g st.lr)
              cfg.eps i)
          nes.model.xMin nes.model.xMax j - x j) ≤ cfg.eps
    refine le_trans (tfNorm_mono fun j => ?_)
      (clipByNorm_norm_le (l2Delta Real.sqrt x st.xAdv g st.lr) heps)
    have h1 := clipByValue_sub_abs
      (fun i => x i + clipByNorm Real.sqrt
        (l2Delta Real.sqrt x st.xAdv g st.lr) cfg.eps i)
      (hx j).1 (hx j).2 j
    simpa using h1
  · intro hm j
    rw [hm]
    show |clipByValue (fun i => x i +
        clipByValue (linfDelta x st.xAdv g st.lr) (-cfg.eps) cfg.eps i)
        nes.model.xMin nes.model.xMax j - x j| ≤ cfg.eps
    have h1 := clipByValue_sub_abs
      (fun i => x i +
        clipByValue (linfDelta x st.xAdv g st.lr) (-cfg.eps) cfg.eps i)
      (hx j).1 (hx j).2 j
    have h2 := clipByValue_mem (linfDelta x st.xAdv g st.lr)
      (neg_le_self heps) j
    refine le_trans h1 ?_
    have h3 : (fun i => x i +
        clipByValue (linfDelta x st.xAdv g st.lr) (-cfg.eps) cfg.eps i) j -
          x j =
        clipByValue (linfDelta x st.xAdv g st.lr) (-cfg.eps) cfg.eps j := by
      simp
    rw [h3]
    exact abs_le.2 ⟨h2.1, h2.2⟩

/-- Witness for C1 on a concrete `l_2` iteration over `ℝ` with origin
`1/2` inside the range `[0, 1]` and `eps = 1/2`. -/
theorem nes_c1_feasibility_witness :
    (∀ j, rNes.model.xMin ≤
        (loopIter rNes rCfg Real.sqrt (fun _ => 1 / 2) 0 0
          (fun _ _ _ => 1) rSt).xAdv j ∧
        (loopIter rNes rCfg Real.sqrt (fun _ => 1 / 2) 0 0
          (fun _ _ _ => 1) rSt).xAdv j ≤ rNes.model.xMax) ∧
      (rNes.metric = Metric.l2 →
        tfNorm Real.sqrt (fun j =>
          (loopIter rNes rCfg Real.sqrt (fun _ => 1 / 2) 0 0
            (fun _ _ _ => 1) rSt).xAdv j -
            (fun _ : Fin 1 => (1 / 2 : ℝ)) j) ≤ rCfg.eps) ∧
      (rNes.metric = Metric.linf →
        ∀ j, |(loopIter rNes rCfg Real.sqrt (fun _ => 1 / 2) 0 0
            (fun _ _ _ => 1) rSt).xAdv j -
            (fun _ : Fin 1 => (1 / 2 : ℝ)) j| ≤ rCfg.eps) :=
  nes_c1_feasibility rNes rCfg (fun _ => 1 / 2) 0 0 (fun _ _ _ => 1) rSt
    (fun j => by norm_num) (by norm_num) (by norm_num)

end Claims

end NESAtk
